import Mathlib

/-!
Shallow embedding of `src/app/controllers/EnrollmentController.js`
(the only source file of the repository).

The controller's three mutating handlers (`store`, `update`, `delete`) are
modelled as pure functions from a repository state (the rows visible to the
ORM) and the already-parsed request fields to a `StepResult`: the HTTP
outcome, the successor state, and whether `Mail.sendMail` was invoked.
JavaScript numbers are IEEE-754 binary64 values; they are modelled exactly
as dyadic rationals `m * 2 ^ e` with round-to-nearest-even multiplication
(`JsNum`), covering the normal finite range the controller handles.
Calendar arithmetic follows the `date-fns` helpers the controller imports:
`startOfHour` zeroes minutes/seconds/milliseconds, `addMonths` rolls the
month field forward and clamps the day to the last valid day of the target
month, `isBefore` is strict chronological order (lexicographic on the
calendar fields, which coincides with timestamp order for valid dates).
-/

namespace Gym

/-- Fuel-driven floor of log2; structural recursion so the kernel can
evaluate it on literals. -/
def log2Aux : Nat → Nat → Nat
  | 0, _ => 0
  | fuel + 1, n => if n ≤ 1 then 0 else log2Aux fuel (n / 2) + 1

/-- Floor of the base-2 logarithm (0 at 0). -/
def natLog2 (n : Nat) : Nat := log2Aux n n

/-- Number of binary digits of `n` (1 at 0, only used on positives). -/
def bits (n : Nat) : Nat := natLog2 n + 1

/-- Round `N / D` (with `D > 0`) to the nearest integer, ties to even:
the IEEE-754 default rounding used by JavaScript arithmetic. -/
def rneDivNat (N D : Nat) : Nat :=
  let q := N / D
  let r := N % D
  if 2 * r < D then q
  else if D < 2 * r then q + 1
  else if q % 2 = 0 then q else q + 1

/-- A JavaScript number (IEEE-754 binary64) in the normal finite range,
represented exactly as the dyadic rational `m * 2 ^ e`. -/
structure JsNum where
  m : Int
  e : Int
deriving DecidableEq

/-- Round the positive value `n * 2 ^ e` to 53 significant bits,
ties to even. -/
def roundM (n : Nat) (e : Int) : JsNum :=
  let k := bits n
  if k ≤ 53 then ⟨n, e⟩
  else
    let s := k - 53
    ⟨rneDivNat n (2 ^ s), e + s⟩

/-- The binary64 value nearest to the positive rational `p / q`
(round to nearest, ties to even): the value a JavaScript decimal
literal such as `129.90` actually denotes. -/
def roundPosRat (p q : Nat) : JsNum :=
  let c : Int := (bits p : Int) - (bits q : Int)
  let e1 : Int := c - 53
  let N1 : Nat := p * 2 ^ (-e1).toNat
  let D1 : Nat := q * 2 ^ e1.toNat
  if N1 < 2 ^ 53 * D1 then ⟨rneDivNat N1 D1, e1⟩
  else ⟨rneDivNat N1 (2 * D1), e1 + 1⟩

/-- JavaScript `*` on binary64 values: exact product, then rounded to 53
significant bits, ties to even. -/
def JsNum.mul (a b : JsNum) : JsNum :=
  let p := a.m * b.m
  if p = 0 then ⟨0, 0⟩
  else
    let r := roundM p.natAbs (a.e + b.e)
    if 0 ≤ p then r else ⟨-r.m, r.e⟩

/-- Value equality of two (possibly non-normalised) dyadic rationals:
the JavaScript `===` on the numbers they represent. -/
def JsNum.eqb (a b : JsNum) : Bool :=
  if a.e ≤ b.e then a.m == b.m * (2 : Int) ^ (b.e - a.e).toNat
  else a.m * (2 : Int) ^ (a.e - b.e).toNat == b.m

/-- Whether the binary64 value `a` equals the exact rational `n / d`
(`d > 0`): cross-multiplied so only integer arithmetic is needed. -/
def JsNum.eqRat (a : JsNum) (n : Int) (d : Nat) : Bool :=
  if 0 ≤ a.e then a.m * (2 : Int) ^ a.e.toNat * d == n
  else a.m * d == n * (2 : Int) ^ (-a.e).toNat

/-- A calendar date-time (UTC), the relevant content of a JS `Date`. -/
structure DateTime where
  year : Int
  month : Nat
  day : Nat
  hour : Nat
  minute : Nat
  second : Nat
  ms : Nat
deriving DecidableEq

/-- date-fns `startOfHour`: zero minutes, seconds and milliseconds. -/
def startOfHour (d : DateTime) : DateTime :=
  { d with minute := 0, second := 0, ms := 0 }

/-- Gregorian leap-year rule. -/
def isLeapYear (y : Int) : Bool :=
  y % 4 = 0 && (y % 100 != 0 || y % 400 = 0)

/-- Number of days of month `m` (1-12) of year `y`. -/
def daysInMonth (y : Int) (m : Nat) : Nat :=
  if m = 2 then (if isLeapYear y then 29 else 28)
  else if m = 4 || m = 6 || m = 9 || m = 11 then 30
  else 31

/-- date-fns `addMonths`: roll the month field forward `n` months and
clamp the day to the last valid day of the resulting month; the
time-of-day fields are unchanged. -/
def addMonths (d : DateTime) (n : Nat) : DateTime :=
  let t : Int := d.year * 12 + ((d.month : Int) - 1) + n
  let y : Int := Int.fdiv t 12
  let m : Nat := (Int.fmod t 12).toNat + 1
  { d with year := y, month := m, day := min d.day (daysInMonth y m) }

/-- date-fns `isBefore`: strict chronological order, here lexicographic on
the calendar fields (which agrees with timestamp order on valid dates). -/
def isBefore (a b : DateTime) : Bool :=
  if a.year != b.year then decide (a.year < b.year)
  else if a.month != b.month then decide (a.month < b.month)
  else if a.day != b.day then decide (a.day < b.day)
  else if a.hour != b.hour then decide (a.hour < b.hour)
  else if a.minute != b.minute then decide (a.minute < b.minute)
  else if a.second != b.second then decide (a.second < b.second)
  else decide (a.ms < b.ms)

/-- A row of the students table (the fields the controller reads). -/
structure Student where
  id : Nat
  name : String
  email : String
deriving DecidableEq

/-- A row of the plans table. `price` is the per-month cost as the
binary64 number the ORM hands to JavaScript; `duration` is in months. -/
structure Plan where
  id : Nat
  title : String
  price : JsNum
  duration : Nat
deriving DecidableEq

/-- A row of the enrollments table. -/
structure Enrollment where
  id : Nat
  student_id : Nat
  plan_id : Nat
  start_date : DateTime
  end_date : DateTime
  price : JsNum
deriving DecidableEq

/-- The repository state the controller manipulates through the ORM;
`nextId` models the auto-increment primary key of enrollments. -/
structure RepoState where
  students : List Student
  plans : List Plan
  enrollments : List Enrollment
  nextId : Nat
deriving DecidableEq

/-- `Student.findByPk(student_id)`. -/
def findStudent (s : RepoState) (sid : Nat) : Option Student :=
  s.students.find? (fun st => st.id == sid)

/-- `Plan.findByPk(plan_id)`. -/
def findPlan (s : RepoState) (pid : Nat) : Option Plan :=
  s.plans.find? (fun p => p.id == pid)

/-- `Enrollment.findOne({ where: { student_id } })`. -/
def findEnrollmentByStudent (s : RepoState) (sid : Nat) : Option Enrollment :=
  s.enrollments.find? (fun e => e.student_id == sid)

/-- The controller's client-facing error responses:
`AlreadyEnrolled` = 401 "Student already has an enrollment",
`StudentNotFound` = 401 "Student no exists" / "The Student was not found",
`PlanNotFound` = 401 "The plan was not found.",
`PastDate` = 400 "Past date are not permitted",
`NotEnrolled` = 401 "The student does not have enrollment". -/
inductive ErrorKind
  | AlreadyEnrolled
  | StudentNotFound
  | PlanNotFound
  | PastDate
  | NotEnrolled
deriving DecidableEq

/-- How a handler invocation ends: an error response, an uncaught promise
rejection (`thrown`, no response is produced), or a JSON response carrying
an enrollment record. -/
inductive Outcome
  | err : ErrorKind → Outcome
  | thrown : Outcome
  | ok : Enrollment → Outcome
deriving DecidableEq

/-- The enrollment carried by a successful outcome, if any. -/
def Outcome.enrollment? : Outcome → Option Enrollment
  | .ok e => some e
  | _ => none

/-- Result of one handler invocation: the outcome, the repository state
afterwards, and whether `Mail.sendMail` was invoked. -/
structure StepResult where
  outcome : Outcome
  state : RepoState
  mailed : Bool
deriving DecidableEq

/-- `store` (POST). Checks, in source order: an existing enrollment for
`student_id` (AlreadyEnrolled), the student row, the plan row, and the
past-date test on the hour-truncated start date. On success it persists a
record whose `start_date` field is the raw request value (the source passes
`start_date`, not the truncated `startDate`, to `Enrollment.create`),
whose `end_date` is `addMonths` of the truncated start, and whose price is
the binary64 product `plan.price * plan.duration`; then it awaits
`Mail.sendMail` with no try/catch, so a mail failure (`mailOk = false`)
leaves the promise rejected and no response is sent. -/
def store (s : RepoState) (now : DateTime) (mailOk : Bool)
    (student_id plan_id : Nat) (start_date : DateTime) : StepResult :=
  match findEnrollmentByStudent s student_id with
  | some _ => ⟨.err .AlreadyEnrolled, s, false⟩
  | none =>
    match findStudent s student_id with
    | none => ⟨.err .StudentNotFound, s, false⟩
    | some _student =>
      match findPlan s plan_id with
      | none => ⟨.err .PlanNotFound, s, false⟩
      | some plan =>
        let startDate := startOfHour start_date
        if isBefore startDate now then ⟨.err .PastDate, s, false⟩
        else
          let priceTotal := JsNum.mul plan.price ⟨(plan.duration : Int), 0⟩
          let endDate := addMonths startDate plan.duration
          let enrollment : Enrollment :=
            { id := s.nextId, student_id := student_id, plan_id := plan_id,
              start_date := start_date,
              end_date := endDate, price := priceTotal }
          let s' : RepoState :=
            { s with enrollments := s.enrollments ++ [enrollment],
                     nextId := s.nextId + 1 }
          if mailOk then ⟨.ok enrollment, s', true⟩
          else ⟨.thrown, s', true⟩

/-- Replace the first element satisfying `p` (the row instance the
preceding `findOne` returned) by `a`; the rest of the list is unchanged. -/
def updateFirst (p : α → Bool) (a : α) : List α → List α
  | [] => []
  | x :: xs => if p x then a :: xs else x :: updateFirst p a xs

/-- `update` (PUT). Checks, in source order: the existing enrollment for
`student_id` (NotEnrolled when absent), the student row, the plan row, the
past-date test; then overwrites the found row in place (same primary key)
with the raw `start_date`, recomputed `end_date` and price, and the new
`plan_id`. No mail is sent. -/
def update (s : RepoState) (now : DateTime)
    (student_id plan_id : Nat) (start_date : DateTime) : StepResult :=
  match findEnrollmentByStudent s student_id with
  | none => ⟨.err .NotEnrolled, s, false⟩
  | some studentEnrollment =>
    match findStudent s student_id with
    | none => ⟨.err .StudentNotFound, s, false⟩
    | some _student =>
      match findPlan s plan_id with
      | none => ⟨.err .PlanNotFound, s, false⟩
      | some plan =>
        let startDate := startOfHour start_date
        if isBefore startDate now then ⟨.err .PastDate, s, false⟩
        else
          let priceTotal := JsNum.mul plan.price ⟨(plan.duration : Int), 0⟩
          let endDate := addMonths startDate plan.duration
          let updated : Enrollment :=
            { studentEnrollment with
              student_id := student_id, plan_id := plan_id,
              start_date := start_date,
              end_date := endDate, price := priceTotal }
          let newRows :=
            updateFirst (fun e => e.student_id == student_id) updated
              s.enrollments
          let s' : RepoState := { s with enrollments := newRows }
          ⟨.ok updated, s', false⟩

/-- `delete` (DELETE). NotEnrolled when no enrollment exists for
`student_id`; otherwise `Enrollment.destroy({ where: { student_id } })`
removes every row with that `student_id` and the handler returns the row
found before the destroy. -/
def delete (s : RepoState) (student_id : Nat) : StepResult :=
  match findEnrollmentByStudent s student_id with
  | none => ⟨.err .NotEnrolled, s, false⟩
  | some studentEnrollment =>
    let kept := s.enrollments.filter (fun e => e.student_id != student_id)
    let s' : RepoState := { s with enrollments := kept }
    ⟨.ok studentEnrollment, s', false⟩

/-- One mutating controller invocation, for reachability statements. -/
inductive Op
  | createOp (now : DateTime) (mailOk : Bool) (sid pid : Nat) (start : DateTime)
  | updateOp (now : DateTime) (sid pid : Nat) (start : DateTime)
  | deleteOp (sid : Nat)

/-- The repository state after one invocation. -/
def applyOp (s : RepoState) : Op → RepoState
  | .createOp now mailOk sid pid start => (store s now mailOk sid pid start).state
  | .updateOp now sid pid start => (update s now sid pid start).state
  | .deleteOp sid => (delete s sid).state

/-- The repository state after a sequence of invocations. -/
def runOps (s : RepoState) : List Op → RepoState
  | [] => s
  | op :: ops => runOps (applyOp s op) ops

/-- At most one enrollment row per `student_id`. -/
def oneEnrollmentPerStudent (s : RepoState) : Prop :=
  s.enrollments.Pairwise (fun a b => a.student_id ≠ b.student_id)

/-- An element of `updateFirst p y l` is an element of `l` or is `y`. -/
theorem mem_updateFirst {p : α → Bool} {y z : α} {l : List α}
    (h : z ∈ updateFirst p y l) : z ∈ l ∨ z = y := by
  induction l with
  | nil => simp [updateFirst] at h
  | cons x xs ih =>
    by_cases hx : p x
    · simp only [updateFirst, if_pos hx] at h
      rcases List.mem_cons.mp h with h | h
      · exact Or.inr h
      · exact Or.inl (List.mem_cons_of_mem _ h)
    · simp only [updateFirst, if_neg hx] at h
      rcases List.mem_cons.mp h with h | h
      · exact Or.inl (h ▸ List.mem_cons_self x xs)
      · rcases ih h with h2 | h2
        · exact Or.inl (List.mem_cons_of_mem _ h2)
        · exact Or.inr h2

/-- Replacing one element keeps the length: `update` never adds a row. -/
theorem length_updateFirst (p : α → Bool) (y : α) (l : List α) :
    (updateFirst p y l).length = l.length := by
  induction l with
  | nil => rfl
  | cons x xs ih => by_cases hx : p x <;> simp [updateFirst, hx, ih]

/-- Replacing the first row with `student_id = sid` by a row that again has
`student_id = sid` keeps student ids pairwise distinct. -/
theorem pairwise_updateFirst {sid : Nat} {y : Enrollment}
    (hy : y.student_id = sid) {l : List Enrollment}
    (h : l.Pairwise (fun a b => a.student_id ≠ b.student_id)) :
    (updateFirst (fun e => e.student_id == sid) y l).Pairwise
      (fun a b => a.student_id ≠ b.student_id) := by
  induction l with
  | nil => simp [updateFirst]
  | cons x xs ih =>
    rcases List.pairwise_cons.mp h with ⟨hx, hxs⟩
    by_cases hpx : x.student_id = sid
    · simp only [updateFirst, hpx, beq_self_eq_true, if_pos]
      refine List.pairwise_cons.mpr ⟨?_, hxs⟩
      intro z hz
      rw [hy, ← hpx]
      exact hx z hz
    · have hb : (x.student_id == sid) = false := by simpa using hpx
      simp only [updateFirst, hb, Bool.false_eq_true, if_neg, not_false_iff]
      refine List.pairwise_cons.mpr ⟨?_, ih hxs⟩
      intro z hz
      rcases mem_updateFirst hz with h2 | h2
      · exact hx z h2
      · rw [h2, hy]; exact hpx

/-- Inversion of a successful `store`: every guard must have passed, the
mail must have succeeded, and the response record and successor state are
determined. -/
theorem store_ok_inversion (s : RepoState) (now : DateTime) (mailOk : Bool)
    (sid pid : Nat) (start : DateTime) (e : Enrollment)
    (h : (store s now mailOk sid pid start).outcome = .ok e) :
    findEnrollmentByStudent s sid = none ∧ mailOk = true ∧
    isBefore (startOfHour start) now = false ∧
    (∃ st, findStudent s sid = some st) ∧
    ∃ p, findPlan s pid = some p ∧
      e = { id := s.nextId, student_id := sid, plan_id := pid,
            start_date := start,
            end_date := addMonths (startOfHour start) p.duration,
            price := JsNum.mul p.price ⟨(p.duration : Int), 0⟩ } ∧
      store s now mailOk sid pid start =
        ⟨.ok e, { s with enrollments := s.enrollments ++ [e],
                         nextId := s.nextId + 1 }, true⟩ := by
  rcases hfe : findEnrollmentByStudent s sid with _ | e0
  · rcases hst : findStudent s sid with _ | st
    · simp [store, hfe, hst] at h
    · rcases hp : findPlan s pid with _ | p
      · simp [store, hfe, hst, hp] at h
      · rcases hb : isBefore (startOfHour start) now with _ | _
        · rcases hm : mailOk with _ | _
          · simp [store, hfe, hst, hp, hb, hm] at h
          · simp only [store, hfe, hst, hp, hb, hm, Bool.false_eq_true,
              if_false, if_true] at h
            injection h with h
            subst h
            refine ⟨rfl, rfl, rfl, ⟨st, rfl⟩, p, rfl, rfl, ?_⟩
            simp [store, hfe, hst, hp, hb, hm]
        · simp [store, hfe, hst, hp, hb] at h
  · simp [store, hfe] at h

/-- Inversion of a successful `update`: the enrollment, student and plan
rows exist, the date check passed, and the response record and successor
state are determined. -/
theorem update_ok_inversion (s : RepoState) (now : DateTime)
    (sid pid : Nat) (start : DateTime) (e : Enrollment)
    (h : (update s now sid pid start).outcome = .ok e) :
    ∃ e0, findEnrollmentByStudent s sid = some e0 ∧
    isBefore (startOfHour start) now = false ∧
    (∃ st, findStudent s sid = some st) ∧
    ∃ p, findPlan s pid = some p ∧
      e = { e0 with
              student_id := sid, plan_id := pid,
              start_date := start,
              end_date := addMonths (startOfHour start) p.duration,
              price := JsNum.mul p.price ⟨(p.duration : Int), 0⟩ } ∧
      update s now sid pid start =
        ⟨.ok e, { s with enrollments := updateFirst (fun x => x.student_id == sid) e s.enrollments }, false⟩ := by
  rcases hfe : findEnrollmentByStudent s sid with _ | e0
  · simp [update, hfe] at h
  · rcases hst : findStudent s sid with _ | st
    · simp [update, hfe, hst] at h
    · rcases hp : findPlan s pid with _ | p
      · simp [update, hfe, hst, hp] at h
      · rcases hb : isBefore (startOfHour start) now with _ | _
        · simp only [update, hfe, hst, hp, hb, Bool.false_eq_true,
            if_false] at h
          injection h with h
          subst h
          refine ⟨e0, rfl, rfl, ⟨st, rfl⟩, p, rfl, rfl, ?_⟩
          simp [update, hfe, hst, hp, hb]
        · simp [update, hfe, hst, hp, hb] at h

/-- `store` either leaves the state unchanged or, when no enrollment
existed for the student, appends one new row with that `student_id`. -/
theorem store_state_cases (s : RepoState) (now : DateTime) (mailOk : Bool)
    (sid pid : Nat) (start : DateTime) :
    (store s now mailOk sid pid start).state = s ∨
    (findEnrollmentByStudent s sid = none ∧
      ∃ e : Enrollment, e.student_id = sid ∧
        (store s now mailOk sid pid start).state =
          { s with enrollments := s.enrollments ++ [e],
                   nextId := s.nextId + 1 }) := by
  rcases hfe : findEnrollmentByStudent s sid with _ | e0
  · rcases hst : findStudent s sid with _ | st
    · left; simp [store, hfe, hst]
    · rcases hp : findPlan s pid with _ | p
      · left; simp [store, hfe, hst, hp]
      · rcases hb : isBefore (startOfHour start) now with _ | _
        · right
          refine ⟨rfl, { id := s.nextId, student_id := sid, plan_id := pid, start_date := start, end_date := addMonths (startOfHour start) p.duration, price := JsNum.mul p.price ⟨(p.duration : Int), 0⟩ }, rfl, ?_⟩
          cases hm : mailOk <;> simp [store, hfe, hst, hp, hb, hm]
        · left; simp [store, hfe, hst, hp, hb]
  · left; simp [store, hfe]

/-- `update` either leaves the state unchanged or replaces the first row
with the given `student_id` by a row that again carries it. -/
theorem update_state_cases (s : RepoState) (now : DateTime)
    (sid pid : Nat) (start : DateTime) :
    (update s now sid pid start).state = s ∨
    ∃ e : Enrollment, e.student_id = sid ∧
      (update s now sid pid start).state =
        { s with enrollments := updateFirst (fun x => x.student_id == sid) e s.enrollments } := by
  rcases hfe : findEnrollmentByStudent s sid with _ | e0
  · left; simp [update, hfe]
  · rcases hst : findStudent s sid with _ | st
    · left; simp [update, hfe, hst]
    · rcases hp : findPlan s pid with _ | p
      · left; simp [update, hfe, hst, hp]
      · rcases hb : isBefore (startOfHour start) now with _ | _
        · right
          exact ⟨{ e0 with student_id := sid, plan_id := pid, start_date := start, end_date := addMonths (startOfHour start) p.duration, price := JsNum.mul p.price ⟨(p.duration : Int), 0⟩ }, rfl, by simp [update, hfe, hst, hp, hb]⟩
        · left; simp [update, hfe, hst, hp, hb]

/-- `delete` either leaves the state unchanged or filters out the rows of
the given student. -/
theorem delete_state_cases (s : RepoState) (sid : Nat) :
    (delete s sid).state = s ∨
    (delete s sid).state =
      { s with enrollments := s.enrollments.filter (fun e => e.student_id != sid) } := by
  rcases hfe : findEnrollmentByStudent s sid with _ | e0
  · left; simp [delete, hfe]
  · right; simp [delete, hfe]

/-- `store` preserves per-student uniqueness of enrollment rows. -/
theorem store_preserves_invariant (s : RepoState) (now : DateTime)
    (mailOk : Bool) (sid pid : Nat) (start : DateTime)
    (h : oneEnrollmentPerStudent s) :
    oneEnrollmentPerStudent (store s now mailOk sid pid start).state := by
  rcases store_state_cases s now mailOk sid pid start with hs | ⟨hfe, e, hesid, hs⟩
  · rw [hs]; exact h
  · rw [hs]
    unfold oneEnrollmentPerStudent at h ⊢
    refine List.pairwise_append.mpr ⟨h, by simp, ?_⟩
    intro a ha b hb
    have hb' : b = e := by simpa using hb
    subst hb'
    have hna := List.find?_eq_none.mp hfe a ha
    simp only [beq_iff_eq] at hna
    rw [hesid]
    exact hna

/-- `update` preserves per-student uniqueness of enrollment rows. -/
theorem update_preserves_invariant (s : RepoState) (now : DateTime)
    (sid pid : Nat) (start : DateTime)
    (h : oneEnrollmentPerStudent s) :
    oneEnrollmentPerStudent (update s now sid pid start).state := by
  rcases update_state_cases s now sid pid start with hs | ⟨e, hesid, hs⟩
  · rw [hs]; exact h
  · rw [hs]
    exact pairwise_updateFirst hesid h

/-- `delete` preserves per-student uniqueness of enrollment rows. -/
theorem delete_preserves_invariant (s : RepoState) (sid : Nat)
    (h : oneEnrollmentPerStudent s) :
    oneEnrollmentPerStudent (delete s sid).state := by
  rcases delete_state_cases s sid with hs | hs <;> rw [hs]
  · exact h
  · exact h.sublist (List.filter_sublist _)

/-- Any sequence of controller invocations preserves per-student
uniqueness of enrollment rows. -/
theorem runOps_preserves_invariant (s : RepoState) (ops : List Op)
    (h : oneEnrollmentPerStudent s) :
    oneEnrollmentPerStudent (runOps s ops) := by
  induction ops generalizing s with
  | nil => exact h
  | cons op ops ih =>
    cases op with
    | createOp now mailOk sid pid start =>
      exact ih _ (store_preserves_invariant s now mailOk sid pid start h)
    | updateOp now sid pid start =>
      exact ih _ (update_preserves_invariant s now sid pid start h)
    | deleteOp sid =>
      exact ih _ (delete_preserves_invariant s sid h)

/-- Concrete fixture: a student row. -/
def wStudent : Student := ⟨1, "Anna", "anna.example"⟩

/-- Concrete fixture: the plan of the spec's pricing example,
price 129.90 (as the binary64 literal) and duration 3 months. -/
def wPlan : Plan := ⟨1, "Gold", roundPosRat 1299 10, 3⟩

/-- Concrete fixture: one student, one plan, no enrollments. -/
def wState : RepoState := ⟨[wStudent], [wPlan], [], 0⟩

/-- Concrete fixture: the current instant used by the witnesses. -/
def wNow : DateTime := ⟨2024, 1, 1, 0, 0, 0, 0⟩

/-- Concrete fixture: the client-supplied start date of the spec's
truncation example, 2024-03-15T10:47:33Z. -/
def wStart : DateTime := ⟨2024, 3, 15, 10, 47, 33, 0⟩

/-- Concrete fixture: the enrollment row `store wState wNow true 1 1
wStart` persists (raw start date, end date three months after the
truncated start, binary64 price 129.90 * 3). -/
def wEnrollment : Enrollment :=
  ⟨0, 1, 1, wStart, ⟨2024, 6, 15, 10, 0, 0, 0⟩, ⟨6855674901508916, -44⟩⟩

/-- Concrete fixture: the state after that successful `store`. -/
def wEnrolled : RepoState := ⟨[wStudent], [wPlan], [wEnrollment], 1⟩

/-- Concrete fixture: a repository with no rows at all. -/
def wEmpty : RepoState := ⟨[], [], [], 0⟩

/-- C1 counterexample: with the claim's own example input
2024-03-15T10:47:33Z the successful create persists start_date
2024-03-15T10:47:33Z, not the hour-truncated 2024-03-15T10:00:00Z:
the source passes the raw `start_date` to `Enrollment.create`. -/
theorem C1_counterexample :
    ((store wState wNow true 1 1 wStart).outcome.enrollment?.map Enrollment.start_date)
        = some ⟨2024, 3, 15, 10, 47, 33, 0⟩ ∧
    startOfHour wStart = ⟨2024, 3, 15, 10, 0, 0, 0⟩ ∧
    ((store wState wNow true 1 1 wStart).outcome.enrollment?.map Enrollment.start_date)
        ≠ some (startOfHour wStart) := by decide

/-- C1 (amended): for every successful create or update, the persisted
start_date equals the raw client-supplied start date; the hour-truncated
value is used only for the past-date check and the end_date computation. -/
theorem C1_start_date_raw (s : RepoState) (now : DateTime) (mailOk : Bool)
    (sid pid : Nat) (start : DateTime) (e e2 : Enrollment) :
    ((store s now mailOk sid pid start).outcome = .ok e → e.start_date = start) ∧
    ((update s now sid pid start).outcome = .ok e2 → e2.start_date = start) := by
  constructor
  · intro h
    rcases store_ok_inversion s now mailOk sid pid start e h with
      ⟨-, -, -, -, p, -, he, -⟩
    rw [he]
  · intro h
    rcases update_ok_inversion s now sid pid start e2 h with
      ⟨e0, -, -, -, p, -, he, -⟩
    rw [he]

/-- C1 witness: the amended statement at the concrete fixture, for both a
successful create and a successful update. -/
theorem C1_start_date_raw_witness :
    ((store wState wNow true 1 1 wStart).outcome = .ok wEnrollment ∧
      wEnrollment.start_date = wStart) ∧
    ((update wEnrolled wNow 1 1 wStart).outcome = .ok wEnrollment ∧
      wEnrollment.start_date = wStart) := by
  have h1 : (store wState wNow true 1 1 wStart).outcome = .ok wEnrollment := by
    decide
  have h2 : (update wEnrolled wNow 1 1 wStart).outcome = .ok wEnrollment := by
    decide
  exact ⟨⟨h1, (C1_start_date_raw wState wNow true 1 1 wStart wEnrollment wEnrollment).1 h1⟩,
    ⟨h2, (C1_start_date_raw wEnrolled wNow true 1 1 wStart wEnrollment wEnrollment).2 h2⟩⟩

/-- C2 counterexample: at the spec's own example (price 129.90, duration
3) the persisted price is the binary64 value 6855674901508916 * 2 ^ (-44)
= 389.70000000000005; it is not the exact decimal 389.70 (eqRat), and it
is not even the binary64 number nearest to 389.70 (eqb). -/
theorem C2_counterexample :
    ((store wState wNow true 1 1 wStart).outcome.enrollment?.map Enrollment.price)
        = some ⟨6855674901508916, -44⟩ ∧
    JsNum.eqRat ⟨6855674901508916, -44⟩ 3897 10 = false ∧
    JsNum.eqb ⟨6855674901508916, -44⟩ (roundPosRat 3897 10) = false := by decide

/-- C2 (amended): for every successful create or update with plan p, the
persisted price is the IEEE-754 binary64 product p.price * p.duration
(JavaScript `*`), not an exact decimal product; in particular price
129.90 with duration 3 yields 6855674901508916 * 2 ^ (-44), which
differs from 389.70. -/
theorem C2_price_binary64 (s : RepoState) (now : DateTime) (mailOk : Bool)
    (sid pid : Nat) (start : DateTime) (p : Plan) (e e2 : Enrollment)
    (hp : findPlan s pid = some p) :
    ((store s now mailOk sid pid start).outcome = .ok e →
        e.price = JsNum.mul p.price ⟨(p.duration : Int), 0⟩) ∧
    ((update s now sid pid start).outcome = .ok e2 →
        e2.price = JsNum.mul p.price ⟨(p.duration : Int), 0⟩) ∧
    JsNum.mul (roundPosRat 1299 10) ⟨3, 0⟩ = ⟨6855674901508916, -44⟩ ∧
    JsNum.eqRat (JsNum.mul (roundPosRat 1299 10) ⟨3, 0⟩) 3897 10 = false := by
  refine ⟨?_, ?_, by decide, by decide⟩
  · intro h
    rcases store_ok_inversion s now mailOk sid pid start e h with
      ⟨-, -, -, -, p2, hp2, he, -⟩
    rw [hp] at hp2
    injection hp2 with hp2
    subst hp2
    rw [he]
  · intro h
    rcases update_ok_inversion s now sid pid start e2 h with
      ⟨e0, -, -, -, p2, hp2, he, -⟩
    rw [hp] at hp2
    injection hp2 with hp2
    subst hp2
    rw [he]

/-- C2 witness: the amended statement at the concrete fixture. -/
theorem C2_price_binary64_witness :
    findPlan wState 1 = some wPlan ∧
    (store wState wNow true 1 1 wStart).outcome = .ok wEnrollment ∧
    wEnrollment.price = JsNum.mul wPlan.price ⟨(wPlan.duration : Int), 0⟩ := by
  have hp : findPlan wState 1 = some wPlan := by decide
  have h1 : (store wState wNow true 1 1 wStart).outcome = .ok wEnrollment := by
    decide
  exact ⟨hp, h1,
    (C2_price_binary64 wState wNow true 1 1 wStart wPlan wEnrollment wEnrollment hp).1 h1⟩

/-- C3 counterexample: when `Mail.sendMail` fails after a successful
persistence, the enrollment row is persisted, but the handler's awaited
promise rejects (`thrown`): the call does not return the persisted
enrollment, contradicting the claim's outcome clause. -/
theorem C3_counterexample :
    (store wState wNow false 1 1 wStart).outcome = .thrown ∧
    (store wState wNow false 1 1 wStart).outcome ≠ .ok wEnrollment ∧
    wEnrollment ∈ (store wState wNow false 1 1 wStart).state.enrollments := by
  decide

/-- C3 (amended): a notifier failure after persistence does not roll the
persisted enrollment back (the successor state is the same as on mail
success and contains the new row), but since the source awaits
`Mail.sendMail` with no try/catch the rejection propagates and the call
does not return the persisted enrollment. -/
theorem C3_mail_failure (s : RepoState) (now : DateTime)
    (sid pid : Nat) (start : DateTime) (e : Enrollment)
    (h : (store s now true sid pid start).outcome = .ok e) :
    (store s now false sid pid start).outcome = .thrown ∧
    (store s now false sid pid start).state = (store s now true sid pid start).state ∧
    e ∈ (store s now false sid pid start).state.enrollments := by
  rcases store_ok_inversion s now true sid pid start e h with
    ⟨hfe, -, hb, ⟨st, hst⟩, p, hp, he, hstore⟩
  subst he
  refine ⟨by simp [store, hfe, hst, hp, hb], ?_, ?_⟩
  · rw [hstore]
    simp [store, hfe, hst, hp, hb]
  · simp [store, hfe, hst, hp, hb]

/-- C3 witness: the amended statement at the concrete fixture. -/
theorem C3_mail_failure_witness :
    (store wState wNow true 1 1 wStart).outcome = .ok wEnrollment ∧
    ((store wState wNow false 1 1 wStart).outcome = .thrown ∧
      (store wState wNow false 1 1 wStart).state = (store wState wNow true 1 1 wStart).state ∧
      wEnrollment ∈ (store wState wNow false 1 1 wStart).state.enrollments) := by
  have h : (store wState wNow true 1 1 wStart).outcome = .ok wEnrollment := by
    decide
  exact ⟨h, C3_mail_failure wState wNow 1 1 wStart wEnrollment h⟩

/-- After appending a row for `sid` to a list with no row for `sid`, the
lookup by student finds exactly the appended row. -/
theorem findEnrollment_append_self (s : RepoState) (sid : Nat) (e : Enrollment)
    (hfe : findEnrollmentByStudent s sid = none) (he : e.student_id = sid) (k : Nat) :
    findEnrollmentByStudent
      { s with enrollments := s.enrollments ++ [e], nextId := k } sid = some e := by
  unfold findEnrollmentByStudent at hfe ⊢
  simp [List.find?_append, hfe, he]

/-- C4: whenever an enrollment already exists for the student, create
fails with AlreadyEnrolled and changes nothing, for every content of the
student and plan tables (so before and independently of those lookups);
and a second create for the same student right after a successful one
fails with AlreadyEnrolled. -/
theorem C4_already_enrolled (s : RepoState) (now now2 : DateTime)
    (mailOk mailOk2 : Bool) (sid pid pid2 : Nat) (start start2 : DateTime) :
    (∀ e0, findEnrollmentByStudent s sid = some e0 →
        store s now mailOk sid pid start = ⟨.err .AlreadyEnrolled, s, false⟩) ∧
    (∀ e, (store s now mailOk sid pid start).outcome = .ok e →
        store (store s now mailOk sid pid start).state now2 mailOk2 sid pid2 start2 =
          ⟨.err .AlreadyEnrolled, (store s now mailOk sid pid start).state, false⟩) := by
  constructor
  · intro e0 hfe
    simp [store, hfe]
  · intro e h
    rcases store_ok_inversion s now mailOk sid pid start e h with
      ⟨hfe, -, -, -, p, -, he, hstore⟩
    have hesid : e.student_id = sid := by rw [he]
    have hfind := findEnrollment_append_self s sid e hfe hesid (s.nextId + 1)
    rw [hstore]
    simp [store, hfind]

/-- C4 witness: the statement at the concrete fixture: a create on a
state already holding an enrollment (with student and plan rows present
or not), and the second of two consecutive creates. -/
theorem C4_already_enrolled_witness :
    store wEnrolled wNow true 1 1 wStart = ⟨.err .AlreadyEnrolled, wEnrolled, false⟩ ∧
    store (store wState wNow true 1 1 wStart).state wNow true 1 1 wStart =
      ⟨.err .AlreadyEnrolled, (store wState wNow true 1 1 wStart).state, false⟩ := by
  have h0 : findEnrollmentByStudent wEnrolled 1 = some wEnrollment := by decide
  have h1 : (store wState wNow true 1 1 wStart).outcome = .ok wEnrollment := by
    decide
  exact ⟨(C4_already_enrolled wEnrolled wNow wNow true true 1 1 1 wStart wStart).1 wEnrollment h0,
    (C4_already_enrolled wState wNow wNow true true 1 1 1 wStart wStart).2 wEnrollment h1⟩

/-- C5: with no enrollment for the student, update and delete both fail
with NotEnrolled and leave the state unchanged; with one, delete returns
the found row, removes every row of that student, and keeps the rest. -/
theorem C5_not_enrolled_delete (s : RepoState) (now : DateTime)
    (sid pid : Nat) (start : DateTime) :
    (findEnrollmentByStudent s sid = none →
        update s now sid pid start = ⟨.err .NotEnrolled, s, false⟩ ∧
        delete s sid = ⟨.err .NotEnrolled, s, false⟩) ∧
    (∀ e, findEnrollmentByStudent s sid = some e →
        (delete s sid).outcome = .ok e ∧
        (∀ x ∈ (delete s sid).state.enrollments, x.student_id ≠ sid) ∧
        (∀ x ∈ s.enrollments, x.student_id ≠ sid →
            x ∈ (delete s sid).state.enrollments) ∧
        (delete s sid).state.enrollments =
          s.enrollments.filter (fun x => x.student_id != sid)) := by
  constructor
  · intro hfe
    exact ⟨by simp [update, hfe], by simp [delete, hfe]⟩
  · intro e hfe
    refine ⟨by simp [delete, hfe], ?_, ?_, by simp [delete, hfe]⟩
    · intro x hx
      simp [delete, hfe, List.mem_filter] at hx
      exact hx.2
    · intro x hx hne
      simp [delete, hfe, List.mem_filter]
      exact ⟨hx, hne⟩

/-- C5 witness: the statement at the concrete fixtures, for both the
empty branch (update and delete fail) and the delete-success branch. -/
theorem C5_not_enrolled_delete_witness :
    (update wState wNow 1 1 wStart = ⟨.err .NotEnrolled, wState, false⟩ ∧
      delete wState 1 = ⟨.err .NotEnrolled, wState, false⟩) ∧
    ((delete wEnrolled 1).outcome = .ok wEnrollment ∧
      (delete wEnrolled 1).state.enrollments = []) := by
  have h0 : findEnrollmentByStudent wState 1 = none := by decide
  have h1 : findEnrollmentByStudent wEnrolled 1 = some wEnrollment := by decide
  refine ⟨(C5_not_enrolled_delete wState wNow 1 1 wStart).1 h0,
    ((C5_not_enrolled_delete wEnrolled wNow 1 1 wStart).2 wEnrollment h1).1, ?_⟩
  decide

/-- C6: per-student uniqueness of enrollment rows is an invariant of
every sequence of create, update and delete invocations. -/
theorem C6_invariant (s : RepoState) (ops : List Op)
    (h : oneEnrollmentPerStudent s) :
    oneEnrollmentPerStudent (runOps s ops) :=
  runOps_preserves_invariant s ops h

/-- C6 witness: the invariant holds at the fixture state and is preserved
by a concrete create, update, delete sequence. -/
theorem C6_invariant_witness :
    oneEnrollmentPerStudent wState ∧
    oneEnrollmentPerStudent (runOps wState
      [Op.createOp wNow true 1 1 wStart, Op.updateOp wNow 1 1 wStart,
        Op.deleteOp 1]) := by
  have h : oneEnrollmentPerStudent wState := by
    unfold oneEnrollmentPerStudent
    decide
  exact ⟨h, C6_invariant wState _ h⟩

/-- C7: every successful create or update with plan p persists
end_date = addMonths of the hour-truncated start by p.duration, and
addMonths has calendar-month semantics: the day is clamped to the last
valid day of the target month and preserved whenever it fits; in the
leap-year example, 2024-01-31 plus one month is 2024-02-29. -/
theorem C7_end_date_months (s : RepoState) (now : DateTime) (mailOk : Bool)
    (sid pid : Nat) (start : DateTime) (p : Plan) (e e2 : Enrollment)
    (hp : findPlan s pid = some p) :
    ((store s now mailOk sid pid start).outcome = .ok e →
        e.end_date = addMonths (startOfHour start) p.duration) ∧
    ((update s now sid pid start).outcome = .ok e2 →
        e2.end_date = addMonths (startOfHour start) p.duration) ∧
    (∀ (d : DateTime) (n : Nat),
        (addMonths d n).day =
          min d.day (daysInMonth (addMonths d n).year (addMonths d n).month) ∧
        (d.day ≤ daysInMonth (addMonths d n).year (addMonths d n).month →
            (addMonths d n).day = d.day)) ∧
    addMonths ⟨2024, 1, 31, 0, 0, 0, 0⟩ 1 = ⟨2024, 2, 29, 0, 0, 0, 0⟩ := by
  refine ⟨?_, ?_, ?_, by decide⟩
  · intro h
    rcases store_ok_inversion s now mailOk sid pid start e h with
      ⟨-, -, -, -, p2, hp2, he, -⟩
    rw [hp] at hp2
    injection hp2 with hp2
    subst hp2
    rw [he]
  · intro h
    rcases update_ok_inversion s now sid pid start e2 h with
      ⟨e0, -, -, -, p2, hp2, he, -⟩
    rw [hp] at hp2
    injection hp2 with hp2
    subst hp2
    rw [he]
  · intro d n
    refine ⟨rfl, fun hle => ?_⟩
    exact min_eq_left hle

/-- C7 witness: the statement at the concrete fixtures; the truncated
start 2024-03-15T10:00 plus 3 months gives end date 2024-06-15T10:00. -/
theorem C7_end_date_months_witness :
    findPlan wState 1 = some wPlan ∧
    (store wState wNow true 1 1 wStart).outcome = .ok wEnrollment ∧
    wEnrollment.end_date = addMonths (startOfHour wStart) wPlan.duration ∧
    (update wEnrolled wNow 1 1 wStart).outcome = .ok wEnrollment ∧
    addMonths ⟨2024, 1, 31, 0, 0, 0, 0⟩ 1 = ⟨2024, 2, 29, 0, 0, 0, 0⟩ := by
  have hp : findPlan wState 1 = some wPlan := by decide
  have hp2 : findPlan wEnrolled 1 = some wPlan := by decide
  have h1 : (store wState wNow true 1 1 wStart).outcome = .ok wEnrollment := by
    decide
  have h2 : (update wEnrolled wNow 1 1 wStart).outcome = .ok wEnrollment := by
    decide
  refine ⟨hp, h1,
    (C7_end_date_months wState wNow true 1 1 wStart wPlan wEnrollment wEnrollment hp).1 h1,
    h2, ?_⟩
  exact (C7_end_date_months wEnrolled wNow true 1 1 wStart wPlan wEnrollment wEnrollment hp2).2.2.2

/-- C8: once the enrollment, student and plan checks have passed, create
and update fail with PastDate exactly when the hour-truncated start date
is strictly before now, and then they change nothing; a truncated start
equal to or after now is never rejected on this ground. -/
theorem C8_past_date (s : RepoState) (now : DateTime) (mailOk : Bool)
    (sid pid : Nat) (start : DateTime) (st : Student) (p : Plan)
    (hst : findStudent s sid = some st) (hp : findPlan s pid = some p) :
    (findEnrollmentByStudent s sid = none →
        (((store s now mailOk sid pid start).outcome = .err .PastDate) ↔
            isBefore (startOfHour start) now = true) ∧
        (isBefore (startOfHour start) now = true →
            store s now mailOk sid pid start = ⟨.err .PastDate, s, false⟩)) ∧
    (∀ e0, findEnrollmentByStudent s sid = some e0 →
        (((update s now sid pid start).outcome = .err .PastDate) ↔
            isBefore (startOfHour start) now = true) ∧
        (isBefore (startOfHour start) now = true →
            update s now sid pid start = ⟨.err .PastDate, s, false⟩)) := by
  constructor
  · intro hfe
    rcases Bool.eq_false_or_eq_true (isBefore (startOfHour start) now) with hb | hb
    · have hs : store s now mailOk sid pid start = ⟨.err .PastDate, s, false⟩ := by
        simp [store, hfe, hst, hp, hb]
      exact ⟨⟨fun _ => hb, fun _ => by rw [hs]⟩, fun _ => hs⟩
    · refine ⟨⟨fun hout => ?_, fun hb2 => by rw [hb2] at hb; simp at hb⟩,
        fun hb2 => by rw [hb2] at hb; simp at hb⟩
      cases hm : mailOk <;> simp [store, hfe, hst, hp, hb, hm] at hout
  · intro e0 hfe
    rcases Bool.eq_false_or_eq_true (isBefore (startOfHour start) now) with hb | hb
    · have hs : update s now sid pid start = ⟨.err .PastDate, s, false⟩ := by
        simp [update, hfe, hst, hp, hb]
      exact ⟨⟨fun _ => hb, fun _ => by rw [hs]⟩, fun _ => hs⟩
    · refine ⟨⟨fun hout => ?_, fun hb2 => by rw [hb2] at hb; simp at hb⟩,
        fun hb2 => by rw [hb2] at hb; simp at hb⟩
      simp [update, hfe, hst, hp, hb] at hout

/-- C8 witness: with the fixture rows present and a start date in 2020
(truncated 2020-01-01T05:00, strictly before now = 2024-01-01T00:00),
create and update respond PastDate and change nothing. -/
theorem C8_past_date_witness :
    findStudent wState 1 = some wStudent ∧ findPlan wState 1 = some wPlan ∧
    store wState wNow true 1 1 ⟨2020, 1, 1, 5, 30, 0, 0⟩ =
      ⟨.err .PastDate, wState, false⟩ ∧
    update wEnrolled wNow 1 1 ⟨2020, 1, 1, 5, 30, 0, 0⟩ =
      ⟨.err .PastDate, wEnrolled, false⟩ := by
  have hst : findStudent wState 1 = some wStudent := by decide
  have hp : findPlan wState 1 = some wPlan := by decide
  have hst2 : findStudent wEnrolled 1 = some wStudent := by decide
  have hp2 : findPlan wEnrolled 1 = some wPlan := by decide
  refine ⟨hst, hp, ?_, ?_⟩
  · exact ((C8_past_date wState wNow true 1 1 ⟨2020, 1, 1, 5, 30, 0, 0⟩
      wStudent wPlan hst hp).1 (by decide)).2 (by decide)
  · exact ((C8_past_date wEnrolled wNow true 1 1 ⟨2020, 1, 1, 5, 30, 0, 0⟩
      wStudent wPlan hst2 hp2).2 wEnrollment (by decide)).2 (by decide)

/-- C9: a successful update replaces the found row in place: the id is
kept, student_id, plan_id and start_date are the request values, end_date
and price are recomputed from the plan, only the first matching row is
rewritten, the row count is unchanged (no new record), and no mail is
sent. -/
theorem C9_update_in_place (s : RepoState) (now : DateTime)
    (sid pid : Nat) (start : DateTime) (e0 e : Enrollment)
    (hfe : findEnrollmentByStudent s sid = some e0)
    (h : (update s now sid pid start).outcome = .ok e) :
    e.id = e0.id ∧ e.student_id = sid ∧ e.plan_id = pid ∧ e.start_date = start ∧
    (∃ p, findPlan s pid = some p ∧
        e.end_date = addMonths (startOfHour start) p.duration ∧
        e.price = JsNum.mul p.price ⟨(p.duration : Int), 0⟩) ∧
    (update s now sid pid start).state.enrollments =
      updateFirst (fun x => x.student_id == sid) e s.enrollments ∧
    (update s now sid pid start).state.enrollments.length =
      s.enrollments.length ∧
    (update s now sid pid start).mailed = false := by
  rcases update_ok_inversion s now sid pid start e h with
    ⟨e0', hfe', hb, ⟨st, hst⟩, p, hp, he, hupd⟩
  rw [hfe] at hfe'
  injection hfe' with hfe'
  subst hfe'
  subst he
  refine ⟨rfl, rfl, rfl, rfl, ⟨p, hp, rfl, rfl⟩, ?_, ?_, ?_⟩
  · rw [hupd]
  · rw [hupd]
    exact length_updateFirst _ _ _
  · rw [hupd]

/-- C9 witness: the statement at the concrete fixture update. -/
theorem C9_update_in_place_witness :
    findEnrollmentByStudent wEnrolled 1 = some wEnrollment ∧
    (update wEnrolled wNow 1 1 wStart).outcome = .ok wEnrollment ∧
    (wEnrollment.id = wEnrollment.id ∧
      (update wEnrolled wNow 1 1 wStart).state.enrollments.length =
        wEnrolled.enrollments.length ∧
      (update wEnrolled wNow 1 1 wStart).mailed = false) := by
  have hfe : findEnrollmentByStudent wEnrolled 1 = some wEnrollment := by decide
  have h : (update wEnrolled wNow 1 1 wStart).outcome = .ok wEnrollment := by
    decide
  have hall := C9_update_in_place wEnrolled wNow 1 1 wStart wEnrollment wEnrollment hfe h
  exact ⟨hfe, h, hall.1, hall.2.2.2.2.2.2.1, hall.2.2.2.2.2.2.2⟩

/-- C10: in update, the enrollment-existence check runs first: whenever
no enrollment exists for the student, update answers NotEnrolled and
changes nothing, whatever the student and plan tables contain — so
NotEnrolled takes precedence over StudentNotFound and PlanNotFound. -/
theorem C10_not_enrolled_first (s : RepoState) (now : DateTime)
    (sid pid : Nat) (start : DateTime)
    (hfe : findEnrollmentByStudent s sid = none) :
    update s now sid pid start = ⟨.err .NotEnrolled, s, false⟩ := by
  simp [update, hfe]

/-- C10 witness: on an entirely empty repository (the student id and plan
id resolve to nothing), update still answers NotEnrolled. -/
theorem C10_not_enrolled_first_witness :
    findEnrollmentByStudent wEmpty 1 = none ∧
    findStudent wEmpty 1 = none ∧ findPlan wEmpty 1 = none ∧
    update wEmpty wNow 1 1 wStart = ⟨.err .NotEnrolled, wEmpty, false⟩ := by
  exact ⟨by decide, by decide, by decide,
    C10_not_enrolled_first wEmpty wNow 1 1 wStart (by decide)⟩

end Gym
